import Mathlib

/-!
Verification development for the local-inference assistant core of the
index-life application (modules under app/modules/assistant: routes.py,
memory.py, background.py).

Modelling conventions:
- The llama tokenizer is an external boundary.  Message contents are
  represented as token sequences (List Nat); counting tokens is list length
  and token-level truncation is List.take, which is the contract of the
  tokenize/detokenize round trip used by _count_tokens and
  _truncate_to_tokens in routes.py.
- Python ints are embedded as Int where subtraction matters, Nat otherwise.
- The json module, the embedding model and the LLM are external boundaries
  and appear as function parameters.
-/

set_option maxRecDepth 16384

namespace IndexLife

/-- Chat message whose content is a token sequence, the view of a message
taken by the budgeter in routes.py (its per-message cost is token count of
the content plus a fixed overhead of 4). -/
structure Msg where
  role : String
  content : List Nat
deriving DecidableEq, Repr

/-- Cost charged per message by _trim_messages_to_fit: token count of the
content plus 4 (routes.py, msg_tokens inner function). -/
def msg_tokens (m : Msg) : Int := (m.content.length : Int) + 4

/-- Total cost of a message list. -/
def sumTokens (ms : List Msg) : Int := (ms.map msg_tokens).sum

/-- Embedding of _truncate_to_tokens (routes.py:250): non-positive budget
gives the empty text, short-enough text is returned unchanged, otherwise the
token sequence is cut to max_tokens. -/
def _truncate_to_tokens (content : List Nat) (maxTokens : Int) : List Nat :=
  if maxTokens ≤ 0 then []
  else if (content.length : Int) ≤ maxTokens then content
  else content.take maxTokens.toNat

/-- Budget computation shared by _trim_messages_to_fit and
_build_continuation_messages: budget = n_ctx - reserve - 8, floored to
max 32 (n_ctx - 8) when that comes out below 128. -/
def computeBudget (nCtx reserve : Int) : Int :=
  let b := nCtx - reserve - 8
  if b < 128 then max 32 (nCtx - 8) else b

/-- First system-message adjustment of _trim_messages_to_fit
(routes.py:361): when system + newest exceed the budget the system message
is replaced by the minimal base prompt. -/
def sysAfterReplace (base : List Nat) (budget : Int) (system0 last0 : Msg) : Msg :=
  if budget < msg_tokens system0 + msg_tokens last0 then ⟨"system", base⟩ else system0

/-- Second system-message adjustment of _trim_messages_to_fit
(routes.py:365): when still over budget the system content itself is
truncated to max 0 (budget - last_tokens - 4) tokens. -/
def sysAfterTrunc (budget : Int) (sys1 last0 : Msg) : Msg :=
  if budget < msg_tokens sys1 + msg_tokens last0 then
    ⟨"system", _truncate_to_tokens sys1.content (max 0 (budget - msg_tokens last0 - 4))⟩
  else sys1

/-- Newest-message adjustment of _trim_messages_to_fit (routes.py:377):
truncated to max 0 (remaining - 4) tokens only when it does not fit the
remaining budget; the role is preserved. -/
def lastAfter (remaining : Int) (last0 : Msg) : Msg :=
  if remaining < msg_tokens last0 then
    ⟨last0.role, _truncate_to_tokens last0.content (max 0 (remaining - 4))⟩
  else last0

/-- Backward greedy fill over the older history (routes.py:387): include a
whole message while it fits the remaining budget, stop at the first message
that would overflow. -/
def greedyFill (r : Int) : List Msg → List Msg
  | [] => []
  | m :: ms => if msg_tokens m ≤ r then m :: greedyFill (r - msg_tokens m) ms else []

/-- Embedding of _trim_messages_to_fit (routes.py:340).  The input list is
system-context message first; the newest message is the final element of the
tail.  Base is the token sequence of the minimal base system prompt. -/
def _trim_messages_to_fit (base : List Nat) (nCtx reserve : Int)
    (messages : List Msg) : List Msg :=
  match messages with
  | [] => []
  | system0 :: tail =>
    match tail.getLast? with
    | none => [system0]
    | some last0 =>
      let budget := computeBudget nCtx reserve
      let sys2 := sysAfterTrunc budget (sysAfterReplace base budget system0 last0) last0
      let remaining := budget - msg_tokens sys2
      let last1 := lastAfter remaining last0
      let remaining1 := remaining - msg_tokens last1
      sys2 :: (greedyFill remaining1 tail.dropLast.reverse).reverse ++ [last1]

/-! ### Inference Session Manager: load cascade (_get_llm, routes.py:399) -/

/-- One engine-initialization candidate: offloaded layer count (-1 means all
layers) and context size, the two values _get_llm varies across attempts. -/
structure LoadCfg where
  n_gpu_layers : Int
  n_ctx : Int
deriving DecidableEq, Repr

/-- Typed load failures of _get_llm: require-GPU set but all GPU candidates
failed, or the final CPU attempt raised (total exhaustion). -/
inductive LoadErr where
  | requireGpuFailed
  | cpuInitFailed
deriving DecidableEq, Repr

/-- Default offloaded-layer cascade of routes.py:49. -/
def _DEFAULT_GPU_LAYER_CANDIDATES : List Int := [-1, 35, 28, 25, 20, 15]

/-- Fuel-indexed loop body of _gpu_ctx_candidates (routes.py:114): walk the
context size down by step while it stays at or above the floor, appending
unseen values.  The fuel always suffices because the source floors the step
at 256 via _env_int. -/
def ctxDescend : Nat → Int → Int → Int → List Int → List Int
  | 0, _, _, _, acc => acc
  | fuel + 1, step, minCtx, ctx, acc =>
    if minCtx ≤ ctx then
      ctxDescend fuel step minCtx (ctx - step) (if ctx ∈ acc then acc else acc ++ [ctx])
    else acc

/-- Embedding of _gpu_ctx_candidates (routes.py:108): the base context first,
then (when LLM_GPU_FIRST) descending steps down to the configured floor. -/
def _gpu_ctx_candidates (gpuFirst : Bool) (step minCtx baseCtx : Int) : List Int :=
  if gpuFirst = false then [baseCtx]
  else ctxDescend ((baseCtx - minCtx).toNat + 1) step minCtx (baseCtx - step) [baseCtx]

/-- GPU portion of the candidate cascade built by the nested loops of
routes.py:481: layer counts as the outer sequence, context sizes as the
inner sequence. -/
def gpuCandidates (layerCands ctxCands : List Int) : List LoadCfg :=
  layerCands.flatMap (fun g => ctxCands.map (fun c => ⟨g, c⟩))

/-- Full ordered candidate cascade: GPU candidates followed by the CPU-only
fallback configuration (n_gpu_layers = 0 at the CPU context size). -/
def loadCandidates (layerCands ctxCands : List Int) (cpuCtx : Int) : List LoadCfg :=
  gpuCandidates layerCands ctxCands ++ [⟨0, cpuCtx⟩]

/-- Inner try loop of _get_llm over GPU candidates: each failure is caught
and the next candidate is tried; on the first success the configuration and
the number of attempts made so far are returned. -/
def tryCandidates (ok : LoadCfg → Bool) : List LoadCfg → Option (LoadCfg × Nat)
  | [] => none
  | c :: cs =>
    if ok c then some (c, 1)
    else
      match tryCandidates ok cs with
      | some (r, n) => some (r, n + 1)
      | none => none

/-- Embedding of the candidate cascade of _get_llm (routes.py:464): try the
GPU candidates in order when GPU offload is supported; on total GPU failure
raise if LLM_REQUIRE_GPU, else make one CPU-only attempt whose failure is
fatal.  The result carries the winning configuration (whose n_ctx is the
recorded effective context size _llm_n_ctx) and the number of
initialization attempts made. -/
def _get_llm_cascade (ok : LoadCfg → Bool) (gpuSupported requireGpu : Bool)
    (gpuCands : List LoadCfg) (cpuCtx : Int) : Except LoadErr (LoadCfg × Nat) :=
  match (if gpuSupported then tryCandidates ok gpuCands else none) with
  | some (cfg, n) => .ok (cfg, n)
  | none =>
    if requireGpu then .error .requireGpuFailed
    else
      let attempted := if gpuSupported then gpuCands.length else 0
      if ok ⟨0, cpuCtx⟩ then .ok (⟨0, cpuCtx⟩, attempted + 1)
      else .error .cpuInitFailed

/-! ### Python string primitives used by memory.py -/

/-- Characters removed by the Python str.strip family (ASCII whitespace). -/
def isPySpace (c : Char) : Bool :=
  c = ' ' || c = '\t' || c = '\n' || c = '\r' || c = '\x0b' || c = '\x0c'

/-- Python str.strip on a character list. -/
def pyStripList (cs : List Char) : List Char :=
  ((cs.dropWhile isPySpace).reverse.dropWhile isPySpace).reverse

/-- Python str.rstrip on a character list. -/
def pyRstripList (cs : List Char) : List Char :=
  (cs.reverse.dropWhile isPySpace).reverse

/-- Python str.strip on a string. -/
def pyStrip (s : String) : String := String.mk (pyStripList s.data)

/-- Case-insensitive match of a pattern (given in lowercase) against the
head of a character list. -/
def matchesAt : List Char → List Char → Bool
  | [], _ => true
  | _ :: _, [] => false
  | t :: ts, c :: cs => (c.toLower = t) && matchesAt ts cs

/-- Leftmost index at which the lowercase pattern matches, case-insensitively
(the semantics of a leftmost regex match on a literal tag). -/
def findTag (tag : List Char) : List Char → Option Nat
  | [] => if matchesAt tag [] then some 0 else none
  | c :: cs =>
    if matchesAt tag (c :: cs) then some 0
    else (findTag tag cs).map (· + 1)

def thinkOpenTag : List Char := "<think>".data

def thinkCloseTag : List Char := "</think>".data

/-- First substitution of _strip_think (memory.py:68): remove every closed,
case-insensitive, non-greedy thinking block, scanning left to right without
rescanning already-produced output, exactly as re.sub does.  Fuel-indexed;
each step consumes at least both tags, so fuel = input length suffices. -/
def removeClosedThinkF : Nat → List Char → List Char
  | 0, cs => cs
  | fuel + 1, cs =>
    match findTag thinkOpenTag cs with
    | none => cs
    | some i =>
      match findTag thinkCloseTag (cs.drop (i + 7)) with
      | none => cs
      | some j => cs.take i ++ removeClosedThinkF fuel ((cs.drop (i + 7)).drop (j + 8))

/-- Second substitution of _strip_think (memory.py:70): drop a trailing
unclosed thinking block from its first remaining opening tag to the end. -/
def removeOpenThink (cs : List Char) : List Char :=
  match findTag thinkOpenTag cs with
  | none => cs
  | some i => cs.take i

/-- Third substitution of _strip_think (memory.py:72): remove stray closing
tags. -/
def removeCloseTagsF : Nat → List Char → List Char
  | 0, cs => cs
  | fuel + 1, cs =>
    match findTag thinkCloseTag cs with
    | none => cs
    | some i => cs.take i ++ removeCloseTagsF fuel (cs.drop (i + 8))

/-- Embedding of _strip_think (memory.py:64): strip thinking markup in three
passes, then strip surrounding whitespace. -/
def _strip_think (s : String) : String :=
  if s = "" then ""
  else String.mk (pyStripList (removeCloseTagsF s.data.length
    (removeOpenThink (removeClosedThinkF s.data.length s.data))))

/-- Embedding of _summary_invalid (memory.py:76): empty, containing a
lowercased opening think tag, or shorter than 5 characters once stripped. -/
def _summary_invalid (text : String) : Bool :=
  if text = "" then true
  else if (findTag thinkOpenTag text.data).isSome then true
  else if (pyStripList text.data).length < 5 then true
  else false

/-- Theme-list parsing inside _parse_summary_response: split the rest of the
line on commas, strip each part, keep the non-empty ones. -/
def parseThemes (cs : List Char) : List (List Char) :=
  (((pyStripList cs).splitOn ',').map pyStripList).filter (fun t => !t.isEmpty)

/-- Embedding of _parse_summary_response (memory.py:194): strip thinking
markup, then scan lines for SUMMARY:/THEMES: markers (case-insensitive,
last occurrence wins); fall back to the first line when no summary marker
matched. -/
def _parse_summary_response (text : String) : String × List String :=
  let t := _strip_think text
  let lines := t.data.splitOn '\n'
  let p := lines.foldl
    (fun (acc : List Char × List (List Char)) (line : List Char) =>
      let l := pyStripList line
      if matchesAt "summary:".data l then (pyStripList (l.drop 8), acc.2)
      else if matchesAt "themes:".data l then (acc.1, parseThemes (l.drop 7))
      else acc)
    ([], [])
  let summary := if p.1.isEmpty then pyStripList (lines.headD []) else p.1
  (String.mk summary, p.2.map String.mk)

/-! ### Layer 3 summaries: generate_entry_summary (memory.py:141) -/

/-- Stored per-record summary row. -/
structure EntrySummaryRow where
  entry_id : Nat
  summary : String
  themes : List String
deriving DecidableEq, Repr

/-- Mood record as generate_entry_summary consumes it. -/
structure Entry where
  id : Nat
  rating : Int
  note : Option String
deriving DecidableEq, Repr

/-- Python runtime errors the embedding can surface. -/
inductive PyError where
  | nameError (missing : String)
deriving DecidableEq, Repr

/-- Fallback text of memory.py:167 and 171: the note cut to 200 characters
with an ellipsis marker when something was cut. -/
def truncNote (note : String) : String :=
  String.mk (note.data.take 200) ++ (if 200 < note.data.length then "..." else "")

/-- Embedding of generate_entry_summary (memory.py:141).  The LLM call is an
external boundary passed in as its outcome; the returned row is what the
function stores and returns.  Line 175 of the source reads two names,
entries and avg, that are not defined in this function (they belong to
generate_month_summary), so reaching that fallback raises NameError - the
embedding surfaces that path as a PyError. -/
def generate_entry_summary (llmResult : Except String String)
    (existing : Option EntrySummaryRow) (entry : Entry) :
    Except PyError EntrySummaryRow :=
  let note := pyStrip (entry.note.getD "")
  let core : Except PyError EntrySummaryRow :=
    let p :=
      if note = "" then
        ("Настроение " ++ toString entry.rating ++ "/10, без заметки.",
         ([] : List String))
      else
        match llmResult with
        | .ok content => _parse_summary_response (pyStrip content)
        | .error _ => (truncNote note, [])
    let s1 := _strip_think p.1
    let s2 := if s1 = "" then truncNote note else s1
    let s3 := _strip_think s2
    if s3 = "" then .error (.nameError "entries")
    else .ok ⟨entry.id, s3, p.2⟩
  match existing with
  | some ex => if _summary_invalid ex.summary = false then .ok ex else core
  | none => core

/-! ### Layer 4 profile: update_profile and _extract_json (memory.py:287) -/

/-- Parsed JSON value at the json-module boundary.  The embedding only needs
to distinguish the empty object (what _extract_json yields on total parse
failure) from any successfully parsed document. -/
inductive PyJson where
  | emptyObj
  | node (source : String)
deriving DecidableEq, Repr

/-- Embedding of _extract_json (memory.py:367), parameterized by the
json.loads boundary (none = JSONDecodeError): try a direct parse, else
parse the largest brace-delimited span (first opening brace through last
closing brace, kept only when the end lies strictly after the start), else
return the empty object. -/
def _extract_json (loads : String → Option PyJson) (text : String) : PyJson :=
  match loads text with
  | some v => v
  | none =>
    let cs := text.data
    match cs.findIdx? (fun c => c = '\x7b'), cs.reverse.findIdx? (fun c => c = '\x7d') with
    | some start, some ridx =>
      let stop := cs.length - 1 - ridx
      if start < stop then
        match loads (String.mk ((cs.take (stop + 1)).drop start)) with
        | some v => v
        | none => PyJson.emptyObj
      else PyJson.emptyObj
    | _, _ => PyJson.emptyObj

/-- Stored profile row (UserPsychProfile). -/
structure ProfileRow where
  profile_json : String
  version : Nat
  entries_analyzed : Nat
deriving DecidableEq, Repr

/-- Embedding of update_profile (memory.py:287).  The json module and the
LLM call are external boundaries (loads, dumps, llmResult); hasSummaries
mirrors the emptiness check on the joined entry summaries; total_entries is
the MoodEntry count.  Rebuild when forced, when no profile exists, when
zero entries were analyzed, or when 50+ new entries accrued; incremental
update when 5+ accrued; otherwise, and on an LLM exception, the stored
profile is returned unchanged.  After a successful call the response is
stripped, _extract_json is applied, and the result - the empty object
included - is serialized into the profile row, bumping the version. -/
def update_profile (loads : String → Option PyJson) (dumps : PyJson → String)
    (llmResult : Except String String) (force_rebuild : Bool)
    (profile : Option ProfileRow) (total_entries : Nat) (hasSummaries : Bool) :
    Option ProfileRow :=
  if total_entries = 0 then profile
  else
    let analyzed : Nat :=
      match profile with
      | none => 0
      | some p => p.entries_analyzed
    let needs_rebuild : Bool :=
      force_rebuild || profile.isNone || decide (analyzed = 0)
        || decide ((50 : Int) ≤ (total_entries : Int) - (analyzed : Int))
    let needs_update : Bool :=
      profile.isSome && !needs_rebuild
        && decide ((5 : Int) ≤ (total_entries : Int) - (analyzed : Int))
    if !needs_rebuild && !needs_update then profile
    else if !hasSummaries then profile
    else
      match llmResult with
      | .error _ => profile
      | .ok content =>
        let raw := _strip_think (pyStrip content)
        let profile_data := _extract_json loads raw
        match profile with
        | none => some ⟨dumps profile_data, 1, total_entries⟩
        | some p => some ⟨dumps profile_data, p.version + 1, total_entries⟩

/-! ### Layer 2 retrieval: search_relevant_entries (memory.py:113) -/

/-- Score of the stored vector at position i (inner product of the query
embedding with that vector, an external numeric boundary embedded as an
exact rational). -/
def scoreAt (scores : List ℚ) (i : Nat) : ℚ := scores.getD i 0

/-- Comparator modelling np.argsort as a deterministic stable ascending
sort: ascending by score, ties kept in storage (index) order. -/
def lexLe (scores : List ℚ) (i j : Nat) : Bool :=
  decide (scoreAt scores i < scoreAt scores j)
    || (decide (scoreAt scores i = scoreAt scores j) && decide (i ≤ j))

/-- Insertion of an index into an already sorted index list, ascending with
respect to the comparator. -/
def insertIdx (le : Nat → Nat → Bool) (i : Nat) : List Nat → List Nat
  | [] => [i]
  | j :: js => if le i j then i :: j :: js else j :: insertIdx le i js

/-- Insertion sort over index lists. -/
def insSort (le : Nat → Nat → Bool) : List Nat → List Nat
  | [] => []
  | i :: is => insertIdx le i (insSort le is)

/-- Model of np.argsort(scores): the index permutation sorting the scores
ascending, ties in storage (index) order.  With the index tiebreaker the
comparator is a strict total order on positions, so this is the unique
ascending permutation - the deterministic reading of the stable argsort
contract. -/
def argsortAsc (scores : List ℚ) : List Nat :=
  insSort (lexLe scores) (List.range scores.length)

/-- Embedding of search_relevant_entries (memory.py:113) on the stored
(entry_id, score) rows in storage order: argsort the scores ascending,
reverse, keep the first top_k indices, and return the corresponding entry
ids in that relevance order (the final DB fetch reorders by these ids). -/
def search_relevant_entries (top_k : Nat) (stored : List (Nat × ℚ)) : List Nat :=
  let entry_ids := stored.map Prod.fst
  let scores := stored.map Prod.snd
  let top_indices := (argsortAsc scores).reverse.take top_k
  top_indices.map (fun i => entry_ids.getD i 0)

/-! ### Continuation Controller (routes.py:268, 276, 587) -/

/-- Terminal punctuation set of _ends_with_terminal_punct (routes.py:272). -/
def isTerminalChar (c : Char) : Bool :=
  c = '.' || c = '!' || c = '?' || c = '…' || c = ')' || c = '"' || c = '»' || c = '”'

/-- Embedding of _ends_with_terminal_punct (routes.py:268): rstrip, empty
counts as terminal, else test the final character. -/
def _ends_with_terminal_punct (text : String) : Bool :=
  match (pyRstripList text.data).getLast? with
  | none => true
  | some c => isTerminalChar c

/-- Default of _env_bool for LLM_AUTO_CONTINUE (routes.py:587): off. -/
def defaultAutoContinue : Bool := false

/-- Default of _env_int for LLM_MAX_CONTINUATIONS (routes.py:588). -/
def defaultMaxContinuations : Nat := 2

/-- Default of _env_int for LLM_RESERVE_TOKENS (routes.py:281). -/
def defaultReserveTokens : Nat := 512

/-- Embedding of _needs_continuation (routes.py:276): non-trivial length,
no terminal punctuation, and a measured output-token count within slack of
the reserve budget.  The tokenizer is the external boundary tok. -/
def _needs_continuation (tok : String → Nat) (reserve : Nat) (text : String) : Bool :=
  if text.length < 40 then false
  else if _ends_with_terminal_punct text then false
  else if decide (0 < reserve) && decide (tok text < max 64 (reserve - 8)) then false
  else true

/-- Embedding of the auto-continuation loop of the stream endpoint
(routes.py:587-612): while the flag is set, the counter is below the
maximum and the accumulated response still looks truncated, issue one more
generation call; a call that appends no tokens ends the loop.  The fuel is
the remaining allowance max_continuations - count; outs lists the outputs
of the successive continuation calls (exhaustion = a call with no tokens).
The result is the number of continuation calls issued. -/
def continuationLoop (tok : String → Nat) (reserve : Nat) (autoCont : Bool) :
    Nat → List String → String → Nat
  | 0, _, _ => 0
  | fuel + 1, outs, full =>
    if autoCont && _needs_continuation tok reserve full then
      match outs with
      | [] => 1
      | out :: rest =>
        if out = "" then 1
        else 1 + continuationLoop tok reserve autoCont fuel rest (full ++ out)
    else 0

/-! ### Model artifact lookup (_get_llm, routes.py:419) -/

/-- Embedding of the artifact lookup in _get_llm: glob the model directory
for .gguf files; raise FileNotFoundError when none, otherwise take the
first match. -/
def _locate_model (gguf_files : List String) : Except String String :=
  match gguf_files with
  | [] => .error "No .gguf model file found in models directory. Place a GGUF model file there."
  | f :: _ => .ok f

/-! ### Background Task Coordinator (background.py) -/

/-- Outcome of a background job run. -/
inductive JobOutcome where
  | skipped
  | ran
  | disabled
deriving DecidableEq, Repr

/-- Embedding of _process_entry (background.py:46): try the module lock with
a short timeout; when it is already held, log and return at once without
doing any work; otherwise run the body (whose own exception propagates) and
release the lock in the finally block either way.  The pair is (lock state
after the job, job result). -/
def _process_entry (locked : Bool) (body : Except String Unit) :
    Bool × Except String JobOutcome :=
  if locked then (locked, .ok .skipped)
  else
    match body with
    | .ok _ => (false, .ok .ran)
    | .error e => (false, .error e)

/-- Embedding of _reindex_all (background.py:93): same lock protocol as
_process_entry around its own body. -/
def _reindex_all (locked : Bool) (body : Except String Unit) :
    Bool × Except String JobOutcome :=
  if locked then (locked, .ok .skipped)
  else
    match body with
    | .ok _ => (false, .ok .ran)
    | .error e => (false, .error e)

/-- Embedding of _warmup (background.py:160): it never touches the module
lock; unless LLM_WARMUP_ON_LOAD is off it loads the models, catching every
exception itself. -/
def _warmup (locked : Bool) (enabled : Bool) : Bool × Except String JobOutcome :=
  (locked, .ok (if enabled then .ran else .disabled))

/-! ### Crisis shortcut of the stream endpoint (routes.py:504, 519) -/

/-- Server-push events of the conversational streaming protocol. -/
inductive SseEvent where
  | token (s : String)
  | continuationMark (n : Nat)
  | errorEvent (s : String)
  | done
deriving DecidableEq, Repr

/-- Observable outcome of one POST to /stream: emitted events, chat rows
written, whether the model was loaded, whether memory context was
assembled, and how many generation calls were made. -/
structure StreamOutcome where
  events : List SseEvent
  saved : List (String × String)
  llmLoaded : Bool
  contextAssembled : Bool
  generationCalls : Nat
deriving DecidableEq, Repr

/-- Python str.lower at the character level (sufficient for the substring
check of _check_crisis). -/
def lowerStr (s : String) : String := String.mk (s.data.map Char.toLower)

/-- Embedding of _check_crisis (routes.py:504): some configured keyword is a
substring of the lowercased message (the keyword itself is not lowered). -/
def _check_crisis (keywords : List String) (text : String) : Bool :=
  keywords.any (fun kw => decide (kw.data <:+: (lowerStr text).data))

/-- Embedding of the dispatch of the stream endpoint (routes.py:519-543),
parameterized by the configured crisis keywords and fixed crisis response
(module prompt data) and by the outcome genPath of the generation branch.
Empty message: only the terminal sentinel.  Crisis: save the user message,
persist the fixed response as the assistant turn, emit it as one token
event followed by the sentinel - without touching the model, the memory
layers or generation.  Otherwise: the generation branch, which also saves
the user message first. -/
def streamEndpoint (keywords : List String) (crisisResponse : String)
    (genPath : StreamOutcome) (rawMessage : String) : StreamOutcome :=
  let user_message := pyStrip rawMessage
  if user_message = "" then ⟨[.done], [], false, false, 0⟩
  else if _check_crisis keywords user_message then
    ⟨[.token crisisResponse, .done],
     [("user", user_message), ("assistant", crisisResponse)], false, false, 0⟩
  else
    ⟨genPath.events, ("user", user_message) :: genPath.saved,
     genPath.llmLoaded, genPath.contextAssembled, genPath.generationCalls⟩

/-! ### Theorems -/

example :
    _trim_messages_to_fit (List.replicate 20 0) 256 120
      [⟨"system", List.replicate 50 0⟩, ⟨"user", List.replicate 150 0⟩]
      = [⟨"system", []⟩, ⟨"user", List.replicate 120 0⟩] := by decide

example :
    _trim_messages_to_fit (List.replicate 20 0) 4096 512
      [⟨"system", List.replicate 10 0⟩, ⟨"user", List.replicate 30 0⟩,
       ⟨"assistant", List.replicate 40 0⟩, ⟨"user", List.replicate 5 0⟩]
      = [⟨"system", List.replicate 10 0⟩, ⟨"user", List.replicate 30 0⟩,
         ⟨"assistant", List.replicate 40 0⟩, ⟨"user", List.replicate 5 0⟩] := by decide

theorem msg_tokens_ge_four (m : Msg) : 4 ≤ msg_tokens m := by
  unfold msg_tokens; omega

@[simp] theorem sumTokens_nil : sumTokens [] = 0 := rfl

@[simp] theorem sumTokens_cons (m : Msg) (ms : List Msg) :
    sumTokens (m :: ms) = msg_tokens m + sumTokens ms := by
  simp [sumTokens]

@[simp] theorem sumTokens_append (l1 l2 : List Msg) :
    sumTokens (l1 ++ l2) = sumTokens l1 + sumTokens l2 := by
  simp [sumTokens]

@[simp] theorem sumTokens_reverse (l : List Msg) :
    sumTokens l.reverse = sumTokens l := by
  simp [sumTokens, List.sum_reverse]

theorem truncate_length_le (c : List Nat) (t : Int) :
    ((_truncate_to_tokens c t).length : Int) ≤ max 0 t := by
  unfold _truncate_to_tokens
  rcases le_or_lt t 0 with h | h
  · simp [if_pos h]
  · rw [if_neg (by omega)]
    rcases le_or_lt (c.length : Int) t with h2 | h2
    · rw [if_pos h2]; omega
    · rw [if_neg (by omega), List.length_take]
      have : (min t.toNat c.length : Int) ≤ t := by
        have : t.toNat ≤ t.toNat := le_rfl
        omega
      omega

theorem truncate_is_take (c : List Nat) (t : Int) :
    ∃ k, _truncate_to_tokens c t = c.take k := by
  unfold _truncate_to_tokens
  rcases le_or_lt t 0 with h | h
  · exact ⟨0, by simp [if_pos h]⟩
  · rw [if_neg (by omega)]
    rcases le_or_lt (c.length : Int) t with h2 | h2
    · exact ⟨c.length, by rw [if_pos h2, List.take_length]⟩
    · exact ⟨t.toNat, by rw [if_neg (by omega)]⟩

theorem computeBudget_ge (nCtx reserve : Int) : 32 ≤ computeBudget nCtx reserve := by
  unfold computeBudget
  rcases lt_or_le (nCtx - reserve - 8) 128 with h | h
  · rw [if_pos h]; exact le_max_left 32 _
  · rw [if_neg (by omega)]; omega

theorem greedyFill_sum_le (ms : List Msg) (r : Int) (hr : 0 ≤ r) :
    sumTokens (greedyFill r ms) ≤ r := by
  induction ms generalizing r with
  | nil => simpa [greedyFill] using hr
  | cons m ms ih =>
    by_cases h : msg_tokens m ≤ r
    · have h4 := msg_tokens_ge_four m
      have := ih (r - msg_tokens m) (by omega)
      simp only [greedyFill, if_pos h, sumTokens_cons]
      omega
    · simp only [greedyFill, if_neg h, sumTokens_nil]; exact hr

theorem greedyFill_spec (ms : List Msg) (r : Int) :
    ∃ rest, ms = greedyFill r ms ++ rest ∧
      (rest = [] ∨ ∃ m rest2, rest = m :: rest2 ∧
        r - sumTokens (greedyFill r ms) < msg_tokens m) := by
  induction ms generalizing r with
  | nil => exact ⟨[], by simp [greedyFill], Or.inl rfl⟩
  | cons m ms ih =>
    by_cases h : msg_tokens m ≤ r
    · obtain ⟨rest, hms, hstop⟩ := ih (r - msg_tokens m)
      refine ⟨rest, ?_, ?_⟩
      · simp only [greedyFill, if_pos h, List.cons_append]
        exact congrArg (m :: ·) hms
      · rcases hstop with h0 | ⟨m2, rest2, hr2, hlt⟩
        · exact Or.inl h0
        · refine Or.inr ⟨m2, rest2, hr2, ?_⟩
          simp only [greedyFill, if_pos h, sumTokens_cons]
          omega
    · refine ⟨m :: ms, by simp [greedyFill, if_neg h], Or.inr ⟨m, ms, rfl, ?_⟩⟩
      simp only [greedyFill, if_neg h, sumTokens_nil]
      omega

theorem lastAfter_fits (budget : Int) (base : List Nat) (s0 l0 : Msg)
    (hb : 32 ≤ budget) :
    msg_tokens (lastAfter
        (budget - msg_tokens (sysAfterTrunc budget (sysAfterReplace base budget s0 l0) l0))
        l0)
      ≤ budget - msg_tokens (sysAfterTrunc budget (sysAfterReplace base budget s0 l0) l0) := by
  set sys1 := sysAfterReplace base budget s0 l0 with hsys1
  unfold sysAfterTrunc
  by_cases h1 : budget < msg_tokens sys1 + msg_tokens l0
  · rw [if_pos h1]
    have htr := truncate_length_le sys1.content (max 0 (budget - msg_tokens l0 - 4))
    set sys2c := _truncate_to_tokens sys1.content (max 0 (budget - msg_tokens l0 - 4)) with hc
    have hst : msg_tokens ⟨"system", sys2c⟩ = (sys2c.length : Int) + 4 := rfl
    unfold lastAfter
    by_cases h2 : budget - msg_tokens ⟨"system", sys2c⟩ < msg_tokens l0
    · rw [if_pos h2]
      have htr2 := truncate_length_le l0.content
        (max 0 (budget - msg_tokens ⟨"system", sys2c⟩ - 4))
      have hlast : msg_tokens (⟨l0.role,
          _truncate_to_tokens l0.content (max 0 (budget - msg_tokens ⟨"system", sys2c⟩ - 4))⟩ : Msg)
          = ((_truncate_to_tokens l0.content
              (max 0 (budget - msg_tokens ⟨"system", sys2c⟩ - 4))).length : Int) + 4 := rfl
      have hl4 := msg_tokens_ge_four l0
      rw [hlast]
      rcases le_or_lt (budget - msg_tokens l0 - 4) 0 with hneg | hpos
      · have : max 0 (budget - msg_tokens l0 - 4) = 0 := by omega
        rw [this] at htr
        rw [hst] at htr2 ⊢
        have hm2 : max 0 (budget - ((sys2c.length : Int) + 4) - 4)
            = budget - ((sys2c.length : Int) + 4) - 4 := by omega
        omega
      · have hmx : max 0 (budget - msg_tokens l0 - 4) = budget - msg_tokens l0 - 4 := by omega
        rw [hmx] at htr
        rw [hst] at h2
        omega
    · rw [if_neg h2]; omega
  · rw [if_neg h1]
    unfold lastAfter
    by_cases h2 : budget - msg_tokens sys1 < msg_tokens l0
    · omega
    · rw [if_neg h2]; omega

theorem lastAfter_shape (remaining : Int) (l0 : Msg) :
    (lastAfter remaining l0).role = l0.role ∧
      ∃ k, (lastAfter remaining l0).content = l0.content.take k := by
  unfold lastAfter
  by_cases h : remaining < msg_tokens l0
  · rw [if_pos h]
    obtain ⟨k, hk⟩ := truncate_is_take l0.content (max 0 (remaining - 4))
    exact ⟨rfl, k, hk⟩
  · rw [if_neg h]
    exact ⟨rfl, l0.content.length, (List.take_length l0.content).symm⟩

theorem sysAfter_shape (base : List Nat) (budget : Int) (s0 l0 : Msg) :
    (∃ k, (sysAfterTrunc budget (sysAfterReplace base budget s0 l0) l0).content
        = s0.content.take k)
    ∨ (∃ k, (sysAfterTrunc budget (sysAfterReplace base budget s0 l0) l0).content
        = base.take k) := by
  unfold sysAfterReplace
  by_cases h1 : budget < msg_tokens s0 + msg_tokens l0
  · rw [if_pos h1]
    unfold sysAfterTrunc
    by_cases h2 : budget < msg_tokens (⟨"system", base⟩ : Msg) + msg_tokens l0
    · rw [if_pos h2]
      obtain ⟨k, hk⟩ := truncate_is_take base (max 0 (budget - msg_tokens l0 - 4))
      exact Or.inr ⟨k, hk⟩
    · rw [if_neg h2]
      exact Or.inr ⟨base.length, (List.take_length base).symm⟩
  · rw [if_neg h1]
    unfold sysAfterTrunc
    by_cases h2 : budget < msg_tokens s0 + msg_tokens l0
    · exact absurd h2 h1
    · rw [if_neg h2]
      exact Or.inl ⟨s0.content.length, (List.take_length s0.content).symm⟩

theorem trim_unfold (base : List Nat) (nCtx reserve : Int) (system0 last0 : Msg)
    (olders : List Msg) :
    _trim_messages_to_fit base nCtx reserve (system0 :: (olders ++ [last0]))
      = (sysAfterTrunc (computeBudget nCtx reserve)
            (sysAfterReplace base (computeBudget nCtx reserve) system0 last0) last0)
        :: (greedyFill
              (computeBudget nCtx reserve
                - msg_tokens (sysAfterTrunc (computeBudget nCtx reserve)
                    (sysAfterReplace base (computeBudget nCtx reserve) system0 last0) last0)
                - msg_tokens (lastAfter
                    (computeBudget nCtx reserve
                      - msg_tokens (sysAfterTrunc (computeBudget nCtx reserve)
                          (sysAfterReplace base (computeBudget nCtx reserve) system0 last0) last0))
                    last0))
              olders.reverse).reverse
        ++ [lastAfter
              (computeBudget nCtx reserve
                - msg_tokens (sysAfterTrunc (computeBudget nCtx reserve)
                    (sysAfterReplace base (computeBudget nCtx reserve) system0 last0) last0))
              last0] := by
  unfold _trim_messages_to_fit
  simp [List.getLast?_append, List.dropLast_concat]

/-- C1: the Context Budgeter _trim_messages_to_fit, on an input consisting of
the system-context message, an older history, and the newest message last,
returns a sequence whose total token cost stays within the computed budget
B = n_ctx - reserve - safety (with the floor of routes.py:348); the newest
message is always present as the final element, with its role preserved and
its content a token-level prefix of the original (possibly truncated); and
the backward greedy fill over the older history takes a contiguous
most-recent-first segment and stops exactly at the first message that would
overflow the remaining budget, so no message that still fits is skipped. -/
theorem trim_messages_budget_newest_greedy_c1 (base : List Nat) (nCtx reserve : Int)
    (system0 last0 : Msg) (olders : List Msg) :
    ∃ sys2 last1 picked rest,
      _trim_messages_to_fit base nCtx reserve (system0 :: (olders ++ [last0]))
          = sys2 :: picked.reverse ++ [last1]
      ∧ sumTokens (sys2 :: picked.reverse ++ [last1]) ≤ computeBudget nCtx reserve
      ∧ last1.role = last0.role
      ∧ (∃ k, last1.content = last0.content.take k)
      ∧ olders.reverse = picked ++ rest
      ∧ (rest = [] ∨ ∃ m rest2, rest = m :: rest2 ∧
          computeBudget nCtx reserve - msg_tokens sys2 - msg_tokens last1
            - sumTokens picked < msg_tokens m) := by
  set budget := computeBudget nCtx reserve with hbdef
  have hb : 32 ≤ budget := computeBudget_ge nCtx reserve
  set sys2 := sysAfterTrunc budget (sysAfterReplace base budget system0 last0) last0 with hs2
  set last1 := lastAfter (budget - msg_tokens sys2) last0 with hl1
  set remaining1 := budget - msg_tokens sys2 - msg_tokens last1 with hr1
  have hfit : msg_tokens last1 ≤ budget - msg_tokens sys2 :=
    lastAfter_fits budget base system0 last0 hb
  have hr1nn : 0 ≤ remaining1 := by omega
  obtain ⟨rest, hsplit, hstop⟩ := greedyFill_spec olders.reverse remaining1
  refine ⟨sys2, last1, greedyFill remaining1 olders.reverse, rest,
    trim_unfold base nCtx reserve system0 last0 olders, ?_, ?_, ?_, hsplit, ?_⟩
  · have hsum := greedyFill_sum_le olders.reverse remaining1 hr1nn
    have h4 := msg_tokens_ge_four sys2
    simp only [sumTokens_cons, sumTokens_append, sumTokens_reverse, sumTokens_nil]
    omega
  · exact (lastAfter_shape (budget - msg_tokens sys2) last0).1
  · exact (lastAfter_shape (budget - msg_tokens sys2) last0).2
  · rcases hstop with h0 | ⟨m, rest2, hr2, hlt⟩
    · exact Or.inl h0
    · exact Or.inr ⟨m, rest2, hr2, by omega⟩

/-- C4 counterexample: the claim states that no message other than the newest
is ever truncated and that the system message may only be replaced by the
minimal base version.  With budget 128 (n_ctx 256, reserve 120), a base
prompt of 20 tokens and a newest message of 150 tokens, the code truncates
the system message itself to the empty content, which is neither the
original system content nor the base prompt. -/
theorem trim_messages_c4_counterexample :
    (_trim_messages_to_fit (List.replicate 20 0) 256 120
        [⟨"system", List.replicate 50 0⟩, ⟨"user", List.replicate 150 0⟩]).head?
      = some ⟨"system", ([] : List Nat)⟩
    ∧ ([] : List Nat) ≠ List.replicate 20 0
    ∧ ([] : List Nat) ≠ List.replicate 50 0 := by
  refine ⟨by decide, by decide, by decide⟩

/-- C4 amended: the Context Budgeter produces at most two truncation points:
the newest message, and the system-context message, whose final content is a
token-level prefix either of the original system content or of the minimal
base prompt (full prefix = replacement, proper prefix = truncation, which
occurs when even base + newest exceed the budget).  Messages of the older
history are never truncated: each one included appears verbatim among the
input history messages. -/
theorem trim_messages_truncation_points_c4 (base : List Nat) (nCtx reserve : Int)
    (system0 last0 : Msg) (olders : List Msg) :
    ∃ (sys2 last1 : Msg) (picked : List Msg),
      _trim_messages_to_fit base nCtx reserve (system0 :: (olders ++ [last0]))
          = sys2 :: picked.reverse ++ [last1]
      ∧ ((∃ k, sys2.content = system0.content.take k)
          ∨ (∃ k, sys2.content = base.take k))
      ∧ (∀ m ∈ picked, m ∈ olders)
      ∧ last1.role = last0.role
      ∧ (∃ k, last1.content = last0.content.take k) := by
  set budget := computeBudget nCtx reserve with hbdef
  set sys2 := sysAfterTrunc budget (sysAfterReplace base budget system0 last0) last0 with hs2
  set last1 := lastAfter (budget - msg_tokens sys2) last0 with hl1
  set remaining1 := budget - msg_tokens sys2 - msg_tokens last1 with hr1
  obtain ⟨rest, hsplit, _⟩ := greedyFill_spec olders.reverse remaining1
  refine ⟨sys2, last1, greedyFill remaining1 olders.reverse,
    trim_unfold base nCtx reserve system0 last0 olders,
    sysAfter_shape base budget system0 last0, ?_,
    (lastAfter_shape (budget - msg_tokens sys2) last0).1,
    (lastAfter_shape (budget - msg_tokens sys2) last0).2⟩
  intro m hm
  have : m ∈ olders.reverse := by
    rw [hsplit]
    exact List.mem_append_left rest hm
  exact List.mem_reverse.mp this

example : _gpu_ctx_candidates true 1024 3072 4096 = [4096, 3072] := by decide

theorem tryCandidates_cons_fail (ok : LoadCfg → Bool) (c : LoadCfg) (cs : List LoadCfg)
    (h : ok c = false) :
    tryCandidates ok (c :: cs)
      = match tryCandidates ok cs with
        | some (r, n) => some (r, n + 1)
        | none => none := by
  simp [tryCandidates, h]

theorem cascade_cons_fail (ok : LoadCfg → Bool) (c : LoadCfg) (cs : List LoadCfg)
    (cpuCtx : Int) (h : ok c = false) :
    _get_llm_cascade ok true false (c :: cs) cpuCtx
      = (_get_llm_cascade ok true false cs cpuCtx).map (fun p => (p.1, p.2 + 1)) := by
  by_cases hc : ok ⟨0, cpuCtx⟩ = true <;>
    cases htc : tryCandidates ok cs <;>
      simp [_get_llm_cascade, tryCandidates, h, htc, hc, Except.map, List.length_cons]

theorem cascade_first_success (ok : LoadCfg → Bool) (gpuCands : List LoadCfg)
    (cpuCtx : Int) (failPart : List LoadCfg) (succCand : LoadCfg) (rest : List LoadCfg)
    (hsplit : gpuCands ++ [⟨0, cpuCtx⟩] = failPart ++ succCand :: rest)
    (hfail : ∀ c ∈ failPart, ok c = false) (hsucc : ok succCand = true) :
    _get_llm_cascade ok true false gpuCands cpuCtx = .ok (succCand, failPart.length + 1) := by
  induction failPart generalizing gpuCands with
  | nil =>
    simp only [List.nil_append] at hsplit
    cases gpuCands with
    | nil =>
      simp only [List.nil_append] at hsplit
      injection hsplit with h1 h2
      subst h1
      simp [_get_llm_cascade, tryCandidates, hsucc]
    | cons g gs =>
      rw [List.cons_append] at hsplit
      injection hsplit with h1 h2
      subst h1
      simp [_get_llm_cascade, tryCandidates, hsucc]
  | cons f fp ih =>
    cases gpuCands with
    | nil =>
      simp only [List.nil_append] at hsplit
      injection hsplit with h1 h2
      exact absurd h2.symm (by simp)
    | cons g gs =>
      rw [List.cons_append] at hsplit
      injection hsplit with h1 h2
      have hokf : ok g = false := h1 ▸ hfail f (List.mem_cons_self f fp)
      rw [cascade_cons_fail ok g gs cpuCtx hokf,
        ih gs h2 (fun c hc => hfail c (List.mem_cons_of_mem f hc))]
      simp [Except.map, List.length_cons]

/-- C2: during lazy first-use loading with GPU offload supported and
LLM_REQUIRE_GPU unset, _get_llm tries candidates strictly in the documented
order - offloaded-layer counts as the outer sequence, context sizes
shrinking from the base as the inner sequence, then the CPU-only fallback -
and stops at the first success, recording its configuration (and hence its
effective context size); for an engine succeeding only on the Nth candidate
(N = failPart.length + 1), exactly N attempts are made.  Under the default
settings (layer cascade -1,35,28,25,20,15; base GPU context 4096, step 1024,
floor 3072; CPU context 8192) the cascade is the explicit nested-order
list. -/
theorem get_llm_cascade_order_c2 (ok : LoadCfg → Bool) (layerCands ctxCands : List Int)
    (cpuCtx : Int) (failPart : List LoadCfg) (succCand : LoadCfg) (rest : List LoadCfg)
    (hsplit : loadCandidates layerCands ctxCands cpuCtx = failPart ++ succCand :: rest)
    (hfail : ∀ c ∈ failPart, ok c = false) (hsucc : ok succCand = true) :
    _get_llm_cascade ok true false (gpuCandidates layerCands ctxCands) cpuCtx
        = .ok (succCand, failPart.length + 1)
    ∧ loadCandidates _DEFAULT_GPU_LAYER_CANDIDATES (_gpu_ctx_candidates true 1024 3072 4096) 8192
        = [⟨-1, 4096⟩, ⟨-1, 3072⟩, ⟨35, 4096⟩, ⟨35, 3072⟩, ⟨28, 4096⟩, ⟨28, 3072⟩,
           ⟨25, 4096⟩, ⟨25, 3072⟩, ⟨20, 4096⟩, ⟨20, 3072⟩, ⟨15, 4096⟩, ⟨15, 3072⟩,
           ⟨0, 8192⟩] := by
  refine ⟨cascade_first_success ok (gpuCandidates layerCands ctxCands) cpuCtx
    failPart succCand rest hsplit hfail hsucc, by decide⟩

/-- C2 witness: an engine that succeeds only on the third default candidate
(35 layers at context 4096) makes exactly three attempts and records that
configuration. -/
theorem get_llm_cascade_order_c2_witness :
    _get_llm_cascade (fun cfg => decide (cfg = ⟨35, 4096⟩)) true false
        (gpuCandidates _DEFAULT_GPU_LAYER_CANDIDATES (_gpu_ctx_candidates true 1024 3072 4096))
        8192
      = .ok (⟨35, 4096⟩, 3) := by
  have h := get_llm_cascade_order_c2 (fun cfg => decide (cfg = ⟨35, 4096⟩))
    _DEFAULT_GPU_LAYER_CANDIDATES (_gpu_ctx_candidates true 1024 3072 4096) 8192
    [⟨-1, 4096⟩, ⟨-1, 3072⟩] ⟨35, 4096⟩
    [⟨35, 3072⟩, ⟨28, 4096⟩, ⟨28, 3072⟩, ⟨25, 4096⟩, ⟨25, 3072⟩, ⟨20, 4096⟩,
     ⟨20, 3072⟩, ⟨15, 4096⟩, ⟨15, 3072⟩, ⟨0, 8192⟩]
    (by decide) (by decide) (by decide)
  exact h.1

example : _strip_think "<think>abc</think>hello" = "hello" := by decide

example : _strip_think "a <THINK>x</think> b" = "a  b" := by decide

example : _strip_think "  <think>only reasoning</think>  " = "" := by decide

example : _strip_think "tail<think>unclosed" = "tail" := by decide

example :
    _parse_summary_response "SUMMARY: went hiking\nTHEMES: nature, rest"
      = ("went hiking", ["nature", "rest"]) := by decide

/-- C6: the claim says generate_entry_summary always stores and returns a
summary without raising, falling back to the truncated raw note when
generation fails or is invalid, including for a note that consists entirely
of reasoning markup.  The code violates this: for such a note the fallback
itself strips to empty and control reaches memory.py:175, which references
the undefined names entries and avg (copied from generate_month_summary)
and raises NameError instead of storing anything.  This theorem evaluates
the embedding at that failing input. -/
theorem generate_entry_summary_c6_name_error :
    generate_entry_summary (.error "llm unavailable") none
        ⟨1, 7, some "<think>secret reasoning</think>"⟩
      = .error (PyError.nameError "entries")
    ∧ generate_entry_summary (.ok "SUMMARY: a fine day outside\nTHEMES: rest") none
        ⟨2, 7, some "walked in the park"⟩
      = .ok ⟨2, "a fine day outside", ["rest"]⟩ := by
  exact ⟨by rfl, by rfl⟩

/-- C3 counterexample: the claim says that when the LLM call succeeds but
its response parses neither directly nor via the brace-delimited span, the
previously stored profile keeps its profile_json, version and
entries_analyzed.  With a stored profile (version 1, 5 entries analyzed),
60 total entries and an unparseable response, the code instead overwrites
profile_json with the serialized empty object, bumps the version to 2 and
sets entries_analyzed to 60. -/
theorem update_profile_c3_counterexample :
    update_profile (fun _ => none) (fun _ => "\x7b\x7d") (.ok "no structured data here")
        false (some ⟨"\x7b\"mood\": \"stable\"\x7d", 1, 5⟩) 60 true
      = some ⟨"\x7b\x7d", 2, 60⟩
    ∧ (some (⟨"\x7b\x7d", 2, 60⟩ : ProfileRow)
        ≠ some (⟨"\x7b\"mood\": \"stable\"\x7d", 1, 5⟩ : ProfileRow)) := by
  exact ⟨by rfl, by decide⟩

/-- C3 amended: when a rebuild or update is due, summaries exist and the LLM
call succeeds with a response on which _extract_json yields the empty
object (neither a direct parse nor the largest brace-delimited span
parses), the stored profile is NOT retained: it is overwritten with the
serialized empty object, its version is incremented and entries_analyzed is
set to the current total.  The previous profile is retained unchanged only
when the LLM call itself raises. -/
theorem update_profile_parse_failure_overwrites_c3
    (loads : String → Option PyJson) (dumps : PyJson → String)
    (raw : String) (p : ProfileRow) (total_entries : Nat)
    (htotal : total_entries ≠ 0)
    (hdue : (50 : Int) ≤ (total_entries : Int) - (p.entries_analyzed : Int))
    (hparse : _extract_json loads (_strip_think (pyStrip raw)) = PyJson.emptyObj)
    (hdumps : dumps PyJson.emptyObj = "\x7b\x7d") :
    update_profile loads dumps (.ok raw) false (some p) total_entries true
        = some ⟨"\x7b\x7d", p.version + 1, total_entries⟩
    ∧ (∀ err : String,
        update_profile loads dumps (.error err) false (some p) total_entries true
          = some p) := by
  constructor
  · unfold update_profile
    rw [if_neg htotal]
    have hreb : (false || (some p).isNone || decide (p.entries_analyzed = 0)
        || decide ((50 : Int) ≤ (total_entries : Int) - (p.entries_analyzed : Int)))
        = true := by
      simp [hdue]
    simp only [hreb]
    simp [hparse, hdumps]
  · intro err
    unfold update_profile
    rw [if_neg htotal]
    have hreb : (false || (some p).isNone || decide (p.entries_analyzed = 0)
        || decide ((50 : Int) ≤ (total_entries : Int) - (p.entries_analyzed : Int)))
        = true := by
      simp [hdue]
    simp only [hreb]
    simp

/-- C3 witness: the amended theorem applied at the counterexample input. -/
theorem update_profile_parse_failure_overwrites_c3_witness :
    update_profile (fun _ => none) (fun _ => "\x7b\x7d") (.ok "no structured data here")
        false (some ⟨"\x7b\"mood\": \"stable\"\x7d", 1, 5⟩) 60 true
      = some ⟨"\x7b\x7d", 2, 60⟩ := by
  have h := update_profile_parse_failure_overwrites_c3 (fun _ => none)
    (fun _ => "\x7b\x7d") "no structured data here"
    ⟨"\x7b\"mood\": \"stable\"\x7d", 1, 5⟩ 60
    (by decide) (by decide) (by rfl) (by rfl)
  exact h.1

theorem lexLe_trans (scores : List ℚ) (a b c : Nat)
    (h1 : lexLe scores a b = true) (h2 : lexLe scores b c = true) :
    lexLe scores a c = true := by
  simp only [lexLe, Bool.or_eq_true, Bool.and_eq_true, decide_eq_true_eq] at h1 h2 ⊢
  rcases h1 with h1 | ⟨h1e, h1i⟩ <;> rcases h2 with h2 | ⟨h2e, h2i⟩
  · exact Or.inl (lt_trans h1 h2)
  · exact Or.inl (h2e ▸ h1)
  · exact Or.inl (h1e ▸ h2)
  · exact Or.inr ⟨h1e.trans h2e, le_trans h1i h2i⟩

theorem lexLe_total (scores : List ℚ) (a b : Nat) :
    (lexLe scores a b || lexLe scores b a) = true := by
  simp only [lexLe, Bool.or_eq_true, Bool.and_eq_true, decide_eq_true_eq]
  rcases lt_trichotomy (scoreAt scores a) (scoreAt scores b) with h | h | h
  · exact Or.inl (Or.inl h)
  · rcases le_total a b with hi | hi
    · exact Or.inl (Or.inr ⟨h, hi⟩)
    · exact Or.inr (Or.inr ⟨h.symm, hi⟩)
  · exact Or.inr (Or.inl h)

theorem insertIdx_perm (le : Nat → Nat → Bool) (i : Nat) (l : List Nat) :
    (insertIdx le i l).Perm (i :: l) := by
  induction l with
  | nil => simp [insertIdx]
  | cons j js ih =>
    by_cases h : le i j = true
    · simp [insertIdx, h]
    · simp only [insertIdx, if_neg h]
      exact (ih.cons j).trans (List.Perm.swap i j js)

theorem insertIdx_pairwise (le : Nat → Nat → Bool)
    (htrans : ∀ a b c, le a b = true → le b c = true → le a c = true)
    (htotal : ∀ a b, (le a b || le b a) = true)
    (i : Nat) (l : List Nat) (h : List.Pairwise (fun a b => le a b = true) l) :
    List.Pairwise (fun a b => le a b = true) (insertIdx le i l) := by
  induction l with
  | nil => simp [insertIdx]
  | cons j js ih =>
    by_cases hij : le i j = true
    · simp only [insertIdx, if_pos hij]
      refine List.Pairwise.cons ?_ h
      intro k hk
      rcases List.mem_cons.mp hk with hk | hk
      · exact hk ▸ hij
      · exact htrans i j k hij (List.rel_of_pairwise_cons h hk)
    · simp only [insertIdx, if_neg hij]
      have hji : le j i = true := by
        have := htotal i j
        rcases Bool.or_eq_true_iff.mp this with h1 | h1
        · exact absurd h1 hij
        · exact h1
      refine List.Pairwise.cons ?_ (ih (List.Pairwise.sublist (List.sublist_cons_self j js) h))
      intro k hk
      have hk2 : k ∈ i :: js := (insertIdx_perm le i js).mem_iff.mp hk
      rcases List.mem_cons.mp hk2 with hk2 | hk2
      · exact hk2 ▸ hji
      · exact List.rel_of_pairwise_cons h hk2

theorem insSort_perm (le : Nat → Nat → Bool) (l : List Nat) :
    (insSort le l).Perm l := by
  induction l with
  | nil => simp [insSort]
  | cons i is ih =>
    exact (insertIdx_perm le i (insSort le is)).trans (ih.cons i)

theorem insSort_pairwise (le : Nat → Nat → Bool)
    (htrans : ∀ a b c, le a b = true → le b c = true → le a c = true)
    (htotal : ∀ a b, (le a b || le b a) = true) (l : List Nat) :
    List.Pairwise (fun a b => le a b = true) (insSort le l) := by
  induction l with
  | nil => simp [insSort]
  | cons i is ih => exact insertIdx_pairwise le htrans htotal i (insSort le is) ih

theorem argsortAsc_reverse_pairwise (scores : List ℚ) :
    List.Pairwise
      (fun i j => scoreAt scores j < scoreAt scores i
        ∨ (scoreAt scores i = scoreAt scores j ∧ j < i))
      (argsortAsc scores).reverse := by
  have hs := insSort_pairwise (lexLe scores) (lexLe_trans scores) (lexLe_total scores)
    (List.range scores.length)
  have hnd : (argsortAsc scores).Nodup :=
    ((insSort_perm (lexLe scores) (List.range scores.length)).nodup_iff).mpr
      (List.nodup_range scores.length)
  have hflip : List.Pairwise (fun i j => lexLe scores j i = true)
      (argsortAsc scores).reverse :=
    List.pairwise_reverse.mpr hs
  have hne : List.Pairwise (fun i j : Nat => i ≠ j) (argsortAsc scores).reverse :=
    List.nodup_reverse.mpr hnd
  refine (hflip.and hne).imp ?_
  intro i j h
  obtain ⟨hle, hij⟩ := h
  simp only [lexLe, Bool.or_eq_true, Bool.and_eq_true, decide_eq_true_eq] at hle
  rcases hle with h | ⟨he, hji⟩
  · exact Or.inl h
  · exact Or.inr ⟨he.symm, lt_of_le_of_ne hji (Ne.symm hij)⟩

/-- C7 counterexample: the claim says ties are broken by original storage
order.  For two stored vectors with equal scores, the reversal of the
ascending argsort puts the later-stored entry first: top_k = 2 returns
[2, 1], not the storage order [1, 2]. -/
theorem search_relevant_c7_counterexample :
    search_relevant_entries 2 [(1, Rat.divInt 1 2), (2, Rat.divInt 1 2)] = [2, 1]
    ∧ search_relevant_entries 2 [(1, Rat.divInt 1 2), (2, Rat.divInt 1 2)] ≠ [1, 2] := by
  exact ⟨by decide, by decide⟩

/-- C7 amended: search_relevant_entries compares the query against all
stored vectors and returns the top-K ids ordered by strictly descending
score, with ties broken by REVERSE storage order (the descending reversal
of a stable ascending argsort), not by original storage order; every
returned index scores at least as high as every index left out; and for
three stored vectors with similarities 0.9, 0.5, 0.1, top_k = 2 returns the
two highest in descending order. -/
theorem search_relevant_topk_order_c7 (top_k : Nat) (stored : List (Nat × ℚ)) :
    search_relevant_entries top_k stored
        = ((argsortAsc (stored.map Prod.snd)).reverse.take top_k).map
            (fun i => (stored.map Prod.fst).getD i 0)
    ∧ List.Pairwise
        (fun i j => scoreAt (stored.map Prod.snd) j < scoreAt (stored.map Prod.snd) i
          ∨ (scoreAt (stored.map Prod.snd) i = scoreAt (stored.map Prod.snd) j ∧ j < i))
        ((argsortAsc (stored.map Prod.snd)).reverse.take top_k)
    ∧ (∀ i ∈ (argsortAsc (stored.map Prod.snd)).reverse.take top_k,
        ∀ j ∈ (argsortAsc (stored.map Prod.snd)).reverse.drop top_k,
          scoreAt (stored.map Prod.snd) j ≤ scoreAt (stored.map Prod.snd) i)
    ∧ search_relevant_entries 2
          [(1, Rat.divInt 9 10), (2, Rat.divInt 5 10), (3, Rat.divInt 1 10)]
        = [1, 2] := by
  refine ⟨rfl, ?_, ?_, by decide⟩
  · exact (argsortAsc_reverse_pairwise (stored.map Prod.snd)).sublist
      (List.take_sublist top_k _)
  · intro i hi j hj
    have hp := argsortAsc_reverse_pairwise (stored.map Prod.snd)
    rw [← List.take_append_drop top_k (argsortAsc (stored.map Prod.snd)).reverse]
      at hp
    have := (List.pairwise_append.mp hp).2.2 i hi j hj
    rcases this with h | ⟨he, _⟩
    · exact le_of_lt h
    · exact he.ge

theorem continuationLoop_succ (tok : String → Nat) (reserve : Nat) (autoCont : Bool)
    (fuel : Nat) (outs : List String) (full : String) :
    continuationLoop tok reserve autoCont (fuel + 1) outs full
      = if autoCont && _needs_continuation tok reserve full then
          match outs with
          | [] => 1
          | out :: rest =>
            if out = "" then 1
            else 1 + continuationLoop tok reserve autoCont fuel rest (full ++ out)
        else 0 := rfl

theorem rstrip_last (cs : List Char) (c : Char) (h : cs.getLast? = some c)
    (hns : isPySpace c = false) :
    (pyRstripList cs).getLast? = some c := by
  obtain ⟨ys, rfl⟩ := List.getLast?_eq_some_iff.mp h
  unfold pyRstripList
  rw [List.reverse_append]
  simp only [List.reverse_cons, List.reverse_nil, List.nil_append, List.cons_append,
    List.dropWhile_cons]
  rw [hns]
  simp only [Bool.false_eq_true, if_false, List.getLast?_reverse]
  rfl

theorem ends_with_last (text : String) (c : Char) (h : text.data.getLast? = some c)
    (hns : isPySpace c = false) :
    _ends_with_terminal_punct text = isTerminalChar c := by
  unfold _ends_with_terminal_punct
  rw [rstrip_last text.data c h hns]

theorem append_data_getLast (s t : String) (c : Char) (h : t.data.getLast? = some c) :
    (s ++ t).data.getLast? = some c := by
  rw [String.data_append, List.getLast?_append, h]
  rfl

/-- C8 counterexample: the claim says that under the default configuration a
qualifying response (no terminal punctuation, above the length floor, token
count within slack of the reserve budget) triggers exactly one continuation
call.  But LLM_AUTO_CONTINUE defaults to off (routes.py:587), so under the
default configuration the loop issues zero continuation calls for exactly
such a response. -/
theorem continuation_c8_counterexample :
    (∃ s, String.mk (List.replicate 493 'a') ++ "…and then I" = s ++ "…and then I")
    ∧ 40 ≤ (String.mk (List.replicate 493 'a') ++ "…and then I").length
    ∧ max 64 (defaultReserveTokens - 8)
        ≤ String.length (String.mk (List.replicate 493 'a') ++ "…and then I")
    ∧ defaultAutoContinue = false
    ∧ continuationLoop String.length defaultReserveTokens defaultAutoContinue
        defaultMaxContinuations ["and finished the walk."]
        (String.mk (List.replicate 493 'a') ++ "…and then I") = 0
    ∧ (0 : Nat) ≠ 1 := by
  exact ⟨⟨String.mk (List.replicate 493 'a'), rfl⟩, by decide, by decide, rfl, rfl,
    by decide⟩

/-- C8 amended: with auto-continue switched on and every other setting at
its default (max continuations 2, reserve 512), a response ending in "…and
then I" whose length is above the floor and whose token count is within the
slack of the reserve budget triggers a continuation call, and exactly one
such call when the continuation output is non-empty and completes the text
with terminal punctuation; a response ending in "." (such as one ending in
"That is all.") never triggers a continuation, regardless of length, flag,
tokenizer or remaining allowance.  Under the default configuration itself
auto-continue is off and no continuation is ever issued. -/
theorem continuation_triggers_c8 (tok : String → Nat) (s out : String)
    (outs : List String)
    (hlen : 40 ≤ (s ++ "…and then I").length)
    (htok : max 64 (defaultReserveTokens - 8) ≤ tok (s ++ "…and then I"))
    (hout : out ≠ "")
    (hterm : _ends_with_terminal_punct ((s ++ "…and then I") ++ out) = true) :
    continuationLoop tok defaultReserveTokens true defaultMaxContinuations
        (out :: outs) (s ++ "…and then I") = 1
    ∧ (∀ (tok2 : String → Nat) (auto : Bool) (fuel : Nat) (outs2 : List String)
          (t : String),
        continuationLoop tok2 defaultReserveTokens auto fuel outs2 (t ++ ".") = 0)
    ∧ (∀ (tok3 : String → Nat) (outs3 : List String) (t3 : String),
        continuationLoop tok3 defaultReserveTokens defaultAutoContinue
          defaultMaxContinuations outs3 t3 = 0) := by
  have hneeds1 : _needs_continuation tok defaultReserveTokens (s ++ "…and then I") = true := by
    unfold _needs_continuation
    rw [if_neg (by omega)]
    have hend : _ends_with_terminal_punct (s ++ "…and then I") = false := by
      rw [ends_with_last (s ++ "…and then I") 'I'
        (append_data_getLast s "…and then I" 'I' (by decide)) (by decide)]
      decide
    rw [hend]
    have htk : (decide (0 < defaultReserveTokens)
        && decide (tok (s ++ "…and then I") < max 64 (defaultReserveTokens - 8))) = false := by
      have : ¬ tok (s ++ "…and then I") < max 64 (defaultReserveTokens - 8) := by omega
      simp [this]
    rw [htk]
    simp
  have hneeds2 : _needs_continuation tok defaultReserveTokens
      ((s ++ "…and then I") ++ out) = false := by
    unfold _needs_continuation
    rw [hterm]
    simp
  refine ⟨?_, ?_, ?_⟩
  · show continuationLoop tok defaultReserveTokens true (1 + 1) (out :: outs)
        (s ++ "…and then I") = 1
    rw [continuationLoop_succ, hneeds1]
    simp only [Bool.true_and, if_true, if_neg hout]
    rw [continuationLoop_succ, hneeds2]
    simp
  · intro tok2 auto fuel outs2 t
    have hend : _ends_with_terminal_punct (t ++ ".") = true := by
      rw [ends_with_last (t ++ ".") '.'
        (append_data_getLast t "." '.' (by decide)) (by decide)]
      decide
    have hneeds : _needs_continuation tok2 defaultReserveTokens (t ++ ".") = false := by
      unfold _needs_continuation
      rw [hend]
      simp
    cases fuel with
    | zero => rfl
    | succ n =>
      show continuationLoop tok2 defaultReserveTokens auto (n + 1) outs2 (t ++ ".") = 0
      rw [continuationLoop_succ, hneeds]
      simp
  · intro tok3 outs3 t3
    rfl

/-- C8 witness: the amended theorem applied to a concrete 504-character
response ending in "…and then I", with the identity-length tokenizer and a
continuation output that ends in a period. -/
theorem continuation_triggers_c8_witness :
    continuationLoop String.length defaultReserveTokens true defaultMaxContinuations
        ["We rested."] (String.mk (List.replicate 493 'a') ++ "…and then I") = 1 :=
  (continuation_triggers_c8 String.length (String.mk (List.replicate 493 'a'))
    "We rested." [] (by decide) (by decide) (by decide) (by decide)).1

/-- C5 counterexample: the claim says the lookup fails fast both when no
artifact is present and when it is ambiguous (more than one).  With two
artifacts the code does not raise: it silently proceeds with the first glob
match. -/
theorem locate_model_c5_counterexample :
    _locate_model ["a.gguf", "b.gguf"] = .ok "a.gguf"
    ∧ ∀ e : String, _locate_model ["a.gguf", "b.gguf"] ≠ .error e := by
  refine ⟨rfl, fun e h => ?_⟩
  simp [_locate_model] at h

/-- C5 amended: the lookup fails fast with the descriptive typed
no-model-found error exactly when the directory holds no model artifact;
with one or more artifacts it proceeds with the first match, with no
ambiguity check. -/
theorem locate_model_c5 :
    (∃ e, _locate_model [] = .error e)
    ∧ ∀ (f : String) (fs : List String), _locate_model (f :: fs) = .ok f := by
  exact ⟨⟨"No .gguf model file found in models directory. Place a GGUF model file there.",
    rfl⟩, fun f fs => rfl⟩

/-- C9 counterexample: the claim says each of the three background jobs
attempts to acquire the coordinator lock and exits immediately doing no
work when it is held.  The warmup job never attempts acquisition: with the
lock held (and warmup enabled) it still runs its work instead of
skipping. -/
theorem background_c9_counterexample :
    _warmup true true = (true, .ok .ran)
    ∧ JobOutcome.ran ≠ JobOutcome.skipped := by
  exact ⟨rfl, by decide⟩

/-- C9 amended: the per-record job and the full reindex attempt the
single-slot lock with a short timeout, exit immediately (doing no work)
when it is already held, and release it on completion or exception, so
neither leaves the lock held; the warmup job, however, performs no lock
acquisition at all - it runs regardless of the lock state and leaves that
state untouched (in particular it also never leaves the lock held). -/
theorem background_lock_protocol_c9 (body : Except String Unit)
    (locked enabled : Bool) :
    _process_entry true body = (true, .ok .skipped)
    ∧ (_process_entry false body).1 = false
    ∧ _reindex_all true body = (true, .ok .skipped)
    ∧ (_reindex_all false body).1 = false
    ∧ (_warmup locked enabled).1 = locked
    ∧ (_warmup true enabled).2 = .ok (if enabled then .ran else .disabled) := by
  refine ⟨rfl, ?_, rfl, ?_, rfl, rfl⟩
  · cases body <;> rfl
  · cases body <;> rfl

/-- C10: whenever the stripped POSTed message is non-empty and its
lowercased text contains a configured crisis keyword as a substring, the
stream endpoint emits exactly the fixed predefined crisis response as one
token event followed by the terminal sentinel, persists the user turn and
that fixed text as the assistant turn, and does so for every possible
generation branch - without loading the model, assembling memory context,
or issuing any generation call. -/
theorem stream_crisis_shortcut_c10 (keywords : List String) (crisisResponse : String)
    (genPath : StreamOutcome) (rawMessage : String) (kw : String)
    (hne : pyStrip rawMessage ≠ "")
    (hkw : kw ∈ keywords)
    (hsub : kw.data <:+: (lowerStr (pyStrip rawMessage)).data) :
    streamEndpoint keywords crisisResponse genPath rawMessage =
      ⟨[.token crisisResponse, .done],
       [("user", pyStrip rawMessage), ("assistant", crisisResponse)],
       false, false, 0⟩ := by
  have hcrisis : _check_crisis keywords (pyStrip rawMessage) = true := by
    unfold _check_crisis
    rw [List.any_eq_true]
    exact ⟨kw, hkw, by simpa using hsub⟩
  unfold streamEndpoint
  rw [if_neg hne, if_pos hcrisis]

/-- C10 witness: a message containing the configured keyword (after
lowercasing) takes the crisis shortcut. -/
theorem stream_crisis_shortcut_c10_witness :
    streamEndpoint ["hopeless"] "Please reach out to a crisis line."
        ⟨[.token "generated"], [], true, true, 1⟩ "  I feel HOPELESS today  "
      = ⟨[.token "Please reach out to a crisis line.", .done],
         [("user", "I feel HOPELESS today"),
          ("assistant", "Please reach out to a crisis line.")],
         false, false, 0⟩ := by
  have h := stream_crisis_shortcut_c10 ["hopeless"] "Please reach out to a crisis line."
    ⟨[.token "generated"], [], true, true, 1⟩ "  I feel HOPELESS today  " "hopeless"
    (by decide) (by decide) (by decide)
  simpa using h

end IndexLife
